import Mathlib

/-!
SecureVault dual-store persistence engine: a shallow embedding.

This file embeds the persistence core of the SecureVault server
(`server/index.js` together with `server/metadataStore.js`) in Lean 4 and
proves the specified properties of its create/update/delete/list operations.

Modelling choices, each mirroring the source:

* Request bodies are parsed JSON (`express.json()`), so a destructured body
  field is either absent (`undefined`, modelled as `Option.none`) or a JSON
  scalar (`JsValue`: `null`, string, number, boolean).  JavaScript
  truthiness and `typeof` tests on these fields are translated literally.
* The secure value store (`storage` over `keytar` or the in-memory
  fallback) is an association list from account keys to passwords;
  `setPassword` overwrites, `getPassword` returns `none` for a missing
  account (keytar returns `null`), `deletePassword` removes the key.
* The metadata file is a `DiskContent`: either missing, or bytes that parse
  to a `Json` value, or unparseable bytes.  `saveMetadata` serialises the
  metadata array with `JSON.stringify` (undefined-valued keys omitted) and
  atomically replaces the file; a failed save leaves the previous content
  intact (the temp-file-then-rename protocol never exposes a partial
  write).  `loadMetadata` only reads: it returns the parsed array elements
  when the content is a JSON array and the empty list otherwise, paired
  with the (unchanged) disk content to make the absence of writes explicit.
* Each HTTP handler becomes a function from the server state (in-memory
  `secretsMetadata` registry, value store, disk) and the request to the
  response (`ApiResult`) and the successor state.  The possibility that the
  `saveMetadata` call inside a handler throws is an explicit `persistOk`
  argument; the rollback branches of the source are translated literally.
-/

namespace SecureVault

/-- A JSON scalar as delivered by `express.json()` body parsing: the values
    that the destructured request fields range over. -/
inductive JsValue where
  | null
  | str (s : String)
  | num (n : Int)
  | bool (b : Bool)
deriving DecidableEq, Repr

/-- JavaScript truthiness of a possibly-absent (`undefined`) body field:
    `undefined`, `null`, `""`, `0` and `false` are falsy. -/
def jsTruthy : Option JsValue → Bool
  | none => false
  | some .null => false
  | some (.str s) => !(s == "")
  | some (.num n) => !(n == 0)
  | some (.bool b) => b

/-- Whether a possibly-absent field is a string (the typeof test of the
    handlers). -/
def isStringVal : Option JsValue → Bool
  | some (.str _) => true
  | _ => false

/-- Trimming as the JavaScript trim of a title: whitespace removed from both
    ends.  Defined over the character list so that concrete instances
    compute by reduction. -/
def jsTrim (s : String) : String :=
  String.mk (((s.data.dropWhile Char.isWhitespace).reverse.dropWhile
    Char.isWhitespace).reverse)

/-- The `VALID_CATEGORIES` constant of `server/index.js`. -/
def VALID_CATEGORIES : List String :=
  ["password", "api-key", "token", "certificate", "note", "other"]

/-- One in-memory metadata record as built by the handlers, with the six
    fields id, title, category, notes, createdAt, updatedAt.  `id` is only
    truthiness-checked by the source, so it may be any scalar; `title` and
    `category` are validated strings; `notes` is a validated string or
    `undefined`; the timestamps are stored verbatim from the request body
    (`none` models `undefined`). -/
structure SecretMetadata where
  id : JsValue
  title : String
  category : String
  notes : Option String
  createdAt : Option JsValue
  updatedAt : Option JsValue
deriving DecidableEq, Repr

instance : Inhabited SecretMetadata :=
  ⟨{ id := .null, title := "", category := "", notes := none,
     createdAt := none, updatedAt := none }⟩

/-- Parsed JSON document, the content of the metadata file. -/
inductive Json where
  | jnull
  | jstr (s : String)
  | jnum (n : Int)
  | jbool (b : Bool)
  | jarr (elems : List Json)
  | jobj (fields : List (String × Json))
deriving Repr

/-- A scalar request value as a JSON value (for `JSON.stringify`). -/
def jsToJson : JsValue → Json
  | .null => .jnull
  | .str s => .jstr s
  | .num n => .jnum n
  | .bool b => .jbool b

/-- An optional object field: `JSON.stringify` omits keys whose value is
    `undefined`, and keeps `null`-valued keys. -/
def optField (name : String) : Option Json → List (String × Json)
  | none => []
  | some j => [(name, j)]

/-- Serialisation of one metadata record as by JSON.stringify: an object with the keys in
    insertion order `id, title, category, notes, createdAt, updatedAt`,
    undefined-valued keys omitted. -/
def metaToJson (m : SecretMetadata) : Json :=
  .jobj ([("id", jsToJson m.id), ("title", .jstr m.title),
          ("category", .jstr m.category)]
    ++ optField "notes" (m.notes.map .jstr)
    ++ optField "createdAt" (m.createdAt.map jsToJson)
    ++ optField "updatedAt" (m.updatedAt.map jsToJson))

/-- Property lookup on a parsed JSON object (`obj.key`), `none` = absent. -/
def jlookup (fields : List (String × Json)) (key : String) : Option Json :=
  (fields.find? (fun f => f.1 == key)).map (fun f => f.2)

/-- Read a JSON scalar back as a request-level value. -/
def jsonToJs : Json → JsValue
  | .jnull => .null
  | .jstr s => .str s
  | .jnum n => .num n
  | .jbool b => .bool b
  | .jarr _ => .null
  | .jobj _ => .null

/-- Decode one loaded metadata object back into a record by reading its
    properties the way the server reads them (absent property =
    `undefined`). -/
def metaFromJson : Json → SecretMetadata
  | .jobj fields =>
    { id := ((jlookup fields "id").map jsonToJs).getD .null,
      title := match jlookup fields "title" with
        | some (.jstr s) => s
        | _ => "",
      category := match jlookup fields "category" with
        | some (.jstr s) => s
        | _ => "",
      notes := match jlookup fields "notes" with
        | some (.jstr s) => some s
        | _ => none,
      createdAt := (jlookup fields "createdAt").map jsonToJs,
      updatedAt := (jlookup fields "updatedAt").map jsonToJs }
  | _ => default

/-- Whether a JSON object has a given key (`Array.isArray` aside,
    used to state what the persisted records do and do not contain). -/
def jsonHasKey : Json → String → Bool
  | .jobj fields, key => fields.any (fun f => f.1 == key)
  | _, _ => false

/-- The keys of a JSON object. -/
def jsonKeys : Json → List String
  | .jobj fields => fields.map (fun f => f.1)
  | _ => []

/-- The metadata file as seen through the filesystem: absent, present with
    content that parses to a JSON document, or present with bytes that
    `JSON.parse` rejects. -/
inductive DiskContent where
  | missing
  | content (j : Json)
  | corrupt
deriving Repr

/-- The Array.isArray test on the parsed document. -/
def isJsonArray : Json → Bool
  | .jarr _ => true
  | _ => false

/-- The loadMetadata function of `server/metadataStore.js`: read the file if present,
    parse, and keep the result only when the top-level shape is an array;
    any parse failure or shape mismatch yields the empty list.  The second
    component is the disk after the call: `load` performs no write, which
    the identity on the disk makes explicit. -/
def loadMetadata (d : DiskContent) : List Json × DiskContent :=
  (match d with
    | .missing => []
    | .corrupt => []
    | .content (.jarr elems) => elems
    | .content _ => [], d)

/-- The disk content produced by a successful `saveMetadata entries`:
    `JSON.stringify(metadata)` written to a temp file and atomically
    renamed over the target.  The previous content is irrelevant. -/
def saveDiskOf (entries : List SecretMetadata) : DiskContent :=
  .content (.jarr (entries.map metaToJson))

/-- The value store: account keys (the secret ids) to passwords.  Keys are
    scalars because `create` keys the store by the body `id` while
    `update`/`delete` key it by the URL parameter (a string). -/
abbrev Store := List (JsValue × String)

/-- Lookup as `storage.getPassword`; `none` models the null result. -/
def storeGet (s : Store) (k : JsValue) : Option String :=
  (s.find? (fun e => e.1 == k)).map (fun e => e.2)

/-- Write as `storage.setPassword`: insert or overwrite. -/
def storeSet (s : Store) (k : JsValue) (v : String) : Store :=
  (k, v) :: s.filter (fun e => !(e.1 == k))

/-- Removal as `storage.deletePassword`: drop the account. -/
def storeDel (s : Store) (k : JsValue) : Store :=
  s.filter (fun e => !(e.1 == k))

/-- The server state: the in-memory `secretsMetadata` array, the value
    store, and the metadata file. -/
structure ServerState where
  registry : List SecretMetadata
  store : Store
  disk : DiskContent
deriving Repr

/-- Body of `POST /api/secrets` after destructuring;
    `none` = field absent (`undefined`). -/
structure CreateReq where
  id : Option JsValue
  title : Option JsValue
  value : Option JsValue
  category : Option JsValue
  notes : Option JsValue
  createdAt : Option JsValue
  updatedAt : Option JsValue
deriving Repr

/-- Body of `PUT /api/secrets/:id` after destructuring. -/
structure UpdateReq where
  title : Option JsValue
  value : Option JsValue
  category : Option JsValue
  notes : Option JsValue
  updatedAt : Option JsValue
deriving Repr

/-- The HTTP response of a handler. -/
inductive ApiResult where
  | created (m : SecretMetadata) (value : String)
  | okJson (m : SecretMetadata) (value : Option String)
  | noContent
  | badRequest (msg : String)
  | notFound
  | conflict
  | serverError (msg : String)
deriving Repr

/-- Validation and capture of the notes field: a defined non-string fails
    validation, otherwise the stored notes field is the string or absent. -/
def checkNotes : Option JsValue → Option (Option String)
  | none => some none
  | some (.str s) => some (some s)
  | some _ => none

/-- The `POST /api/secrets` handler (create).  `persistOk` says whether the
    `saveMetadata` call inside it succeeds; on failure the source pops the
    freshly pushed record, deletes the keychain entry again, and answers
    500 after the atomic save left the file unchanged. -/
def createOp (st : ServerState) (req : CreateReq) (persistOk : Bool) :
    ApiResult × ServerState :=
  if !(jsTruthy req.id && jsTruthy req.title && jsTruthy req.value
        && jsTruthy req.category) then
    (.badRequest "Missing required fields", st)
  else
    match req.title with
    | some (.str title) =>
      if jsTrim title == "" then
        (.badRequest "Title must be a non-empty string", st)
      else
        match req.category with
        | some (.str category) =>
          if !(VALID_CATEGORIES.contains category) then
            (.badRequest "Invalid category", st)
          else
            match req.value with
            | some (.str value) =>
              if value == "" then
                (.badRequest "Secret value must be a non-empty string", st)
              else
                match checkNotes req.notes with
                | none => (.badRequest "Notes must be a string", st)
                | some notes =>
                  match req.id with
                  | none => (.badRequest "Missing required fields", st)
                  | some idv =>
                    if (st.registry.find? (fun s => s.id == idv)).isSome then
                      (.conflict, st)
                    else
                      let store1 := storeSet st.store idv value
                      let metadata : SecretMetadata :=
                        { id := idv, title := jsTrim title, category := category,
                          notes := notes, createdAt := req.createdAt,
                          updatedAt := req.updatedAt }
                      let registry1 := st.registry ++ [metadata]
                      if persistOk then
                        (.created metadata value,
                         { registry := registry1, store := store1,
                           disk := saveDiskOf registry1 })
                      else
                        (.serverError "Failed to create secret",
                         { registry := registry1.dropLast,
                           store := storeDel store1 idv, disk := st.disk })
            | _ => (.badRequest "Secret value must be a non-empty string", st)
        | _ => (.badRequest "Invalid category", st)
    | _ => (.badRequest "Title must be a non-empty string", st)

/-- Whether a provided title fails validation: defined and either not a
    string or blank after trimming. -/
def titleBad : Option JsValue → Bool
  | none => false
  | some (.str s) => jsTrim s == ""
  | some _ => true

/-- Whether a provided category fails validation: defined and not in
    VALID_CATEGORIES. -/
def categoryBad : Option JsValue → Bool
  | none => false
  | some (.str c) => !(VALID_CATEGORIES.contains c)
  | some _ => true

/-- Whether provided notes fail validation: defined and not a string. -/
def notesBad : Option JsValue → Bool
  | none => false
  | some (.str _) => false
  | some _ => true

/-- The metadata replacement of the update handler: each provided field
    replaces the existing one (title trimmed), each omitted field is kept. -/
def applyUpdate (existing : SecretMetadata) (req : UpdateReq) : SecretMetadata :=
  { existing with
    title := match req.title with
      | some (.str t) => jsTrim t
      | _ => existing.title,
    category := match req.category with
      | some (.str c) => c
      | _ => existing.category,
    notes := match req.notes with
      | some (.str n) => some n
      | _ => existing.notes,
    updatedAt := match req.updatedAt with
      | some u => some u
      | none => existing.updatedAt }

/-- The `PUT /api/secrets/:id` handler (update).  The id comes from the URL
    path, hence is a string.  On a failed save the source restores the
    previous record at the same index; when a new value had been written it
    re-sets the previously read value — which keytar had returned as `null`
    when the account was absent, so the restore then clears the account
    (the in-memory fallback stores `null`, read back as `null`). -/
def updateOp (st : ServerState) (paramId : String) (req : UpdateReq)
    (persistOk : Bool) : ApiResult × ServerState :=
  match st.registry.findIdx? (fun s => s.id == JsValue.str paramId) with
  | none => (.notFound, st)
  | some metaIndex =>
    if titleBad req.title then
      (.badRequest "Title must be a non-empty string", st)
    else if categoryBad req.category then
      (.badRequest "Invalid category", st)
    else if notesBad req.notes then
      (.badRequest "Notes must be a string", st)
    else
      let existingMeta := st.registry.getD metaIndex default
      let secretValue := storeGet st.store (.str paramId)
      match req.value with
      | some v =>
        if v == JsValue.null || v == JsValue.str "" then
          (.badRequest "Secret value cannot be empty", st)
        else
          match v with
          | .str value =>
            let previousValue := secretValue
            let store1 := storeSet st.store (.str paramId) value
            let updatedMeta := applyUpdate existingMeta req
            let registry1 := st.registry.set metaIndex updatedMeta
            if persistOk then
              (.okJson updatedMeta (some value),
               { registry := registry1, store := store1,
                 disk := saveDiskOf registry1 })
            else
              (.serverError "Failed to update secret",
               { registry := registry1.set metaIndex existingMeta,
                 store := match previousValue with
                   | some pv => storeSet store1 (.str paramId) pv
                   | none => storeDel store1 (.str paramId),
                 disk := st.disk })
          | _ => (.badRequest "Secret value must be a string", st)
      | none =>
        let updatedMeta := applyUpdate existingMeta req
        let registry1 := st.registry.set metaIndex updatedMeta
        if persistOk then
          (.okJson updatedMeta secretValue,
           { registry := registry1, store := st.store,
             disk := saveDiskOf registry1 })
        else
          (.serverError "Failed to update secret",
           { registry := registry1.set metaIndex existingMeta,
             store := st.store, disk := st.disk })

/-- The `DELETE /api/secrets/:id` handler.  On a failed save the source
    splices the record back at its index and, when the deleted value was
    not `null`, re-sets it in the store. -/
def deleteOp (st : ServerState) (paramId : String) (persistOk : Bool) :
    ApiResult × ServerState :=
  match st.registry.findIdx? (fun s => s.id == JsValue.str paramId) with
  | none => (.notFound, st)
  | some metaIndex =>
    let deletedMetadata := st.registry.getD metaIndex default
    let deletedValue := storeGet st.store (.str paramId)
    let store1 := storeDel st.store (.str paramId)
    let registry1 := st.registry.eraseIdx metaIndex
    if persistOk then
      (.noContent,
       { registry := registry1, store := store1, disk := saveDiskOf registry1 })
    else
      (.serverError "Failed to delete secret",
       { registry := registry1.insertIdx metaIndex deletedMetadata,
         store := match deletedValue with
           | some dv => storeSet store1 (.str paramId) dv
           | none => store1,
         disk := st.disk })

/-- One mutating request. -/
inductive Op where
  | create (req : CreateReq)
  | update (id : String) (req : UpdateReq)
  | del (id : String)

/-- Dispatch of a mutating request to its handler. -/
def applyOp (st : ServerState) (op : Op) (persistOk : Bool) :
    ApiResult × ServerState :=
  match op with
  | .create req => createOp st req persistOk
  | .update id req => updateOp st id req persistOk
  | .del id => deleteOp st id persistOk

/-- The success responses of the three handlers: 201, 200, 204. -/
def isSuccess : ApiResult → Bool
  | .created _ _ => true
  | .okJson _ _ => true
  | .noContent => true
  | _ => false

/-- The getAllSecrets helper: map each registry record to itself joined with its
    stored value, skipping records whose lookup throws (`getFails`) or
    yields a falsy value (`null` or the empty string), in registry order
    (`Promise.all` keeps the mapped order, `filter(Boolean)` preserves it). -/
def getAllSecrets (registry : List SecretMetadata) (store : Store)
    (getFails : JsValue → Bool) : List (SecretMetadata × String) :=
  registry.filterMap (fun meta =>
    if getFails meta.id then none
    else
      match storeGet store meta.id with
      | some v => if v == "" then none else some (meta, v)
      | none => none)

/-- The list-all result as the specification words it: exactly the registry
    records whose id has a present, non-empty value in the store and whose
    lookup does not fail, joined with that value, in registry order. -/
def listAllSpec (registry : List SecretMetadata) (store : Store)
    (getFails : JsValue → Bool) : List (SecretMetadata × String) :=
  (registry.filter (fun m =>
      !(getFails m.id) && (storeGet store m.id).isSome
        && !((storeGet store m.id).getD "" == ""))).map
    (fun m => (m, (storeGet store m.id).getD ""))

/-! ## Concrete fixtures

Concrete states and requests used by the witness and counterexample
theorems below. -/

/-- A concrete metadata record: what the create fixture stores. -/
def sampleMeta : SecretMetadata :=
  { id := .str "a", title := "T", category := "password",
    notes := none, createdAt := none, updatedAt := none }

/-- The empty server state at first startup: nothing stored, no file. -/
def wState0 : ServerState := { registry := [], store := [], disk := .missing }

/-- A valid create request for id "a". -/
def wCreateReq : CreateReq :=
  { id := some (.str "a"), title := some (.str "T"),
    value := some (.str "v"), category := some (.str "password"),
    notes := none, createdAt := none, updatedAt := none }

/-- The state after the create fixture succeeds. -/
def wSt1 : ServerState := (createOp wState0 wCreateReq true).2

/-- A valid create request for id "b". -/
def wCreateReqB : CreateReq :=
  { wCreateReq with id := some (.str "b"), value := some (.str "w") }

/-- An update request supplying only a new title. -/
def wUpdReq : UpdateReq :=
  { title := some (.str "T2"), value := none, category := none,
    notes := none, updatedAt := none }

/-- The record produced by updating the fixture with only a new title. -/
def wMeta2 : SecretMetadata :=
  { id := .str "a", title := "T2", category := "password",
    notes := none, createdAt := none, updatedAt := none }

/-- The state after the title-only update of the fixture. -/
def wSt2 : ServerState := (updateOp wSt1 "a" wUpdReq true).2

/-- An update request that explicitly supplies an empty value. -/
def wEmptyValReq : UpdateReq :=
  { title := none, value := some (.str ""), category := none,
    notes := none, updatedAt := none }

/-- A record whose timestamps are the number 5. -/
def c9Meta : SecretMetadata :=
  { id := .str "a", title := "T", category := "password",
    notes := none, createdAt := some (.num 5), updatedAt := some (.num 5) }

/-- A consistent state holding `c9Meta`. -/
def c9State : ServerState :=
  { registry := [c9Meta], store := [(.str "a", "v")],
    disk := saveDiskOf [c9Meta] }

/-- An update request whose caller-supplied `updatedAt` is the number 3,
    smaller than the stored timestamp 5. -/
def c9Req : UpdateReq :=
  { title := none, value := none, category := none, notes := none,
    updatedAt := some (.num 3) }

/-! ## Serialisation lemmas -/

theorem jsonToJs_jsToJson (v : JsValue) : jsonToJs (jsToJson v) = v := by
  cases v <;> rfl

theorem metaFromJson_metaToJson (m : SecretMetadata) :
    metaFromJson (metaToJson m) = m := by
  obtain ⟨id, title, category, notes, createdAt, updatedAt⟩ := m
  rcases notes with _ | n <;> rcases createdAt with _ | c <;>
    rcases updatedAt with _ | u <;> cases id <;>
    simp [metaToJson, metaFromJson, optField, jlookup, jsonToJs_jsToJson]

theorem map_metaFromJson_metaToJson (entries : List SecretMetadata) :
    (entries.map metaToJson).map metaFromJson = entries := by
  induction entries with
  | nil => rfl
  | cons a l ih => simp [metaFromJson_metaToJson, ih]

/-! ## Store lemmas -/

theorem storeGet_storeDel_self (s : Store) (k : JsValue) :
    storeGet (storeDel s k) k = none := by
  induction s with
  | nil => rfl
  | cons e t ih =>
    rcases e with ⟨ek, ev⟩
    by_cases h : ek = k <;> simp [storeDel, storeGet, h] at ih ⊢

/-! ## Claim theorems -/

/-- C4.  Round-trip: saving any sequence of metadata records and reloading
    from the resulting file yields the serialised records in order, and
    decoding them recovers exactly the saved sequence. -/
theorem save_load_round_trip (entries : List SecretMetadata) :
    (loadMetadata (saveDiskOf entries)).1 = entries.map metaToJson ∧
    ((loadMetadata (saveDiskOf entries)).1).map metaFromJson = entries := by
  exact ⟨rfl, map_metaFromJson_metaToJson entries⟩

/-- C5.  Corrupted-file recovery: content that is unparseable or whose
    top-level parsed shape is not an array makes `loadMetadata` return the
    empty sequence while leaving the content untouched (the second
    component of `loadMetadata` is the disk after the call, and the source
    performs no write during load); a subsequent save succeeds regardless
    of the prior content, and reloading it returns exactly what was
    saved. -/
theorem corrupt_load_recovers (j : Json) (hj : isJsonArray j = false) :
    loadMetadata (.content j) = ([], .content j) ∧
    loadMetadata .corrupt = ([], .corrupt) ∧
    ∀ entries : List SecretMetadata,
      (loadMetadata (saveDiskOf entries)).1 = entries.map metaToJson ∧
      ((loadMetadata (saveDiskOf entries)).1).map metaFromJson = entries := by
  refine ⟨?_, rfl, ?_⟩
  · cases j <;> first
      | rfl
      | (exfalso; simp [isJsonArray] at hj)
  · intro entries
    exact ⟨rfl, map_metaFromJson_metaToJson entries⟩

/-- Witness for C5 at the concrete non-array object content and the
    concrete one-record sequence. -/
theorem corrupt_load_recovers_witness :
    loadMetadata (.content (.jobj [])) = ([], .content (.jobj [])) ∧
    loadMetadata .corrupt = ([], .corrupt) ∧
    ((loadMetadata (saveDiskOf [sampleMeta])).1).map metaFromJson
      = [sampleMeta] := by
  obtain ⟨h1, h2, h3⟩ := corrupt_load_recovers (.jobj []) rfl
  exact ⟨h1, h2, (h3 [sampleMeta]).2⟩

/-- C10.  The list-all operation agrees with its specification: it returns
    exactly the registry records whose id has a present, non-empty value in
    the store and whose lookup does not fail, each joined with that value,
    in registry order; the omitted records stay untouched in the registry
    and on disk because `getAllSecrets` only reads. -/
theorem getAllSecrets_eq_spec (registry : List SecretMetadata)
    (store : Store) (getFails : JsValue → Bool) :
    getAllSecrets registry store getFails
      = listAllSpec registry store getFails := by
  induction registry with
  | nil => rfl
  | cons a l ih =>
    simp only [getAllSecrets, listAllSpec, List.filterMap_cons,
      List.filter_cons] at *
    cases hgf : getFails a.id
    · cases hsg : storeGet store a.id with
      | none => simpa [hgf, hsg] using ih
      | some v =>
        cases hv : v == ""
        · simpa [hgf, hsg, hv] using ih
        · have : v = "" := by simpa using hv
          simpa [hgf, hsg, hv, this] using ih
    · simpa [hgf] using ih

/-- Key lemma for C3: the serialised record of a secret never carries a
    `value` key. -/
theorem metaToJson_no_value (m : SecretMetadata) :
    jsonHasKey (metaToJson m) "value" = false := by
  obtain ⟨id, title, category, notes, createdAt, updatedAt⟩ := m
  rcases notes with _ | n <;> rcases createdAt with _ | c <;>
    rcases updatedAt with _ | u <;>
    simp [metaToJson, jsonHasKey, optField]

/-- Key lemma for C3: the serialised record of a secret carries only the
    six metadata keys. -/
theorem metaToJson_keys_subset (m : SecretMetadata) (k : String)
    (h : jsonHasKey (metaToJson m) k = true) :
    k ∈ ["id", "title", "category", "notes", "createdAt", "updatedAt"] := by
  obtain ⟨id, title, category, notes, createdAt, updatedAt⟩ := m
  rcases notes with _ | n <;> rcases createdAt with _ | c <;>
    rcases updatedAt with _ | u <;>
    simp [metaToJson, jsonHasKey, optField] at h <;> simp <;> tauto

/-- C1.  After every mutating operation that completes successfully (201
    created, 200 ok, 204 no content), a fresh load of the metadata file
    returns exactly the serialisation of the in-memory registry, and
    decoding the loaded records gives back the registry itself: the two
    states never diverge at a success response, from any prior state, so
    the property holds after each step of every operation sequence. -/
theorem success_means_fresh_load_equals_registry (st : ServerState)
    (op : Op) (persistOk : Bool)
    (hs : isSuccess (applyOp st op persistOk).1 = true) :
    (loadMetadata (applyOp st op persistOk).2.disk).1
      = ((applyOp st op persistOk).2.registry).map metaToJson ∧
    ((loadMetadata (applyOp st op persistOk).2.disk).1).map metaFromJson
      = (applyOp st op persistOk).2.registry := by
  have h1 : (loadMetadata (applyOp st op persistOk).2.disk).1
      = ((applyOp st op persistOk).2.registry).map metaToJson := by
    revert hs
    cases op with
    | create req =>
      simp only [applyOp]
      unfold createOp
      repeat' split
      all_goals intro hs
      all_goals simp_all [isSuccess, loadMetadata, saveDiskOf]
    | update id req =>
      simp only [applyOp]
      unfold updateOp
      repeat' split
      all_goals intro hs
      all_goals simp_all [isSuccess, loadMetadata, saveDiskOf]
    | del id =>
      simp only [applyOp]
      unfold deleteOp
      repeat' split
      all_goals intro hs
      all_goals simp_all [isSuccess, loadMetadata, saveDiskOf]
  exact ⟨h1, by rw [h1, map_metaFromJson_metaToJson]⟩

/-- Witness for C1 at a concrete successful create from the empty state. -/
theorem success_means_fresh_load_equals_registry_witness :
    isSuccess (applyOp wState0 (Op.create wCreateReq) true).1 = true ∧
    (loadMetadata (applyOp wState0 (Op.create wCreateReq) true).2.disk).1
      = ((applyOp wState0 (Op.create wCreateReq) true).2.registry).map
          metaToJson :=
  ⟨rfl,
   (success_means_fresh_load_equals_registry wState0 (Op.create wCreateReq)
      true rfl).1⟩

/-- C2.  When the metadata save inside a create fails (the only way the
    handler answers 500 persistence failure), the rollback leaves the
    in-memory registry equal to its pre-operation value, the metadata file
    untouched, and the value store without an entry for the created id. -/
theorem create_persist_failure_rolls_back (st : ServerState)
    (req : CreateReq) (msg : String) (st' : ServerState)
    (hEq : createOp st req false = (.serverError msg, st')) :
    st'.registry = st.registry ∧ st'.disk = st.disk ∧
    ∀ idv, req.id = some idv → storeGet st'.store idv = none := by
  unfold createOp at hEq
  repeat' split at hEq
  all_goals injection hEq with h1 h2
  all_goals first
    | exact ApiResult.noConfusion h1
    | (subst h2
       refine ⟨by simp, rfl, ?_⟩
       intro idv hid
       simp_all [storeGet_storeDel_self])

/-- Witness for C2: a failing create of id "b" on the one-secret state. -/
theorem create_persist_failure_rolls_back_witness :
    (createOp wSt1 wCreateReqB false).2.registry = wSt1.registry ∧
    (createOp wSt1 wCreateReqB false).2.disk = wSt1.disk ∧
    storeGet (createOp wSt1 wCreateReqB false).2.store (.str "b") = none := by
  have h := create_persist_failure_rolls_back wSt1 wCreateReqB
    "Failed to create secret" (createOp wSt1 wCreateReqB false).2 rfl
  exact ⟨h.1, h.2.1, h.2.2 (.str "b") rfl⟩

/-- C3.  Every write any operation makes to the metadata file is the
    serialisation of a sequence of metadata records, and each serialised
    record carries no `value` key — only (a subset of) the six keys id,
    title, category, notes, createdAt, updatedAt.  A state whose disk the
    operation does not touch is reported as such. -/
theorem persisted_records_never_contain_value (st : ServerState) (op : Op)
    (persistOk : Bool) :
    (applyOp st op persistOk).2.disk = st.disk ∨
    ∃ entries : List SecretMetadata,
      (applyOp st op persistOk).2.disk
        = DiskContent.content (.jarr (entries.map metaToJson)) ∧
      ∀ m ∈ entries, jsonHasKey (metaToJson m) "value" = false ∧
        ∀ k, jsonHasKey (metaToJson m) k = true →
          k ∈ ["id", "title", "category", "notes", "createdAt", "updatedAt"] := by
  cases op with
  | create req =>
    simp only [applyOp]
    unfold createOp
    repeat' split
    all_goals first
      | exact Or.inl rfl
      | exact Or.inr ⟨_, rfl, fun m _ =>
          ⟨metaToJson_no_value m, fun k hk => metaToJson_keys_subset m k hk⟩⟩
  | update id req =>
    simp only [applyOp]
    unfold updateOp
    repeat' split
    all_goals first
      | exact Or.inl rfl
      | exact Or.inr ⟨_, rfl, fun m _ =>
          ⟨metaToJson_no_value m, fun k hk => metaToJson_keys_subset m k hk⟩⟩
  | del id =>
    simp only [applyOp]
    unfold deleteOp
    repeat' split
    all_goals first
      | exact Or.inl rfl
      | exact Or.inr ⟨_, rfl, fun m _ =>
          ⟨metaToJson_no_value m, fun k hk => metaToJson_keys_subset m k hk⟩⟩

/-- C6.  A successful update keeps every omitted field: omitted title,
    category, notes and updatedAt keep their prior values, and an omitted
    value leaves the value store untouched and answers with the previously
    stored value. -/
theorem update_preserves_omitted_fields (st : ServerState)
    (paramId : String) (req : UpdateReq) (persistOk : Bool) (i : Nat)
    (old m : SecretMetadata) (v : Option String) (st' : ServerState)
    (hIdx : st.registry.findIdx? (fun s => s.id == JsValue.str paramId)
      = some i)
    (hOld : st.registry.getD i default = old)
    (hEq : updateOp st paramId req persistOk = (.okJson m v, st')) :
    (req.title = none → m.title = old.title) ∧
    (req.category = none → m.category = old.category) ∧
    (req.notes = none → m.notes = old.notes) ∧
    (req.updatedAt = none → m.updatedAt = old.updatedAt) ∧
    (req.value = none → st'.store = st.store ∧
      v = storeGet st.store (JsValue.str paramId)) := by
  unfold updateOp at hEq
  repeat' split at hEq
  all_goals injection hEq with h1 h2
  all_goals first
    | exact ApiResult.noConfusion h1
    | (injection h1 with hm hv
       subst hm hv h2
       refine ⟨?_, ?_, ?_, ?_, ?_⟩ <;> intro h0 <;>
         simp_all [applyUpdate])

/-- Witness for C6, the concrete scenario of the specification: create
    id "a" title "T" value "v" category "password", update with only title
    "T2"; the result keeps value "v" and category "password". -/
theorem update_preserves_omitted_fields_witness :
    wUpdReq.category = none ∧ wUpdReq.value = none ∧
    updateOp wSt1 "a" wUpdReq true = (.okJson wMeta2 (some "v"), wSt2) ∧
    wMeta2.title = "T2" ∧
    wMeta2.category = sampleMeta.category ∧
    wMeta2.category = "password" ∧
    wSt2.store = wSt1.store ∧
    storeGet wSt1.store (.str "a") = some "v" := by
  have h := update_preserves_omitted_fields wSt1 "a" wUpdReq true 0
    sampleMeta wMeta2 (some "v") wSt2 rfl rfl rfl
  exact ⟨rfl, rfl, rfl, rfl, h.2.1 rfl, rfl, (h.2.2.2.2 rfl).1, rfl⟩

/-- C7.  An update that explicitly supplies an empty value is rejected
    with a 400 validation error and the whole state — registry, value
    store and metadata file — is returned unchanged. -/
theorem update_empty_value_rejected (st : ServerState) (paramId : String)
    (req : UpdateReq) (persistOk : Bool) (i : Nat)
    (hIdx : st.registry.findIdx? (fun s => s.id == JsValue.str paramId)
      = some i)
    (hV : req.value = some (JsValue.str "")) :
    ∃ msg, updateOp st paramId req persistOk = (.badRequest msg, st) := by
  unfold updateOp
  repeat' split
  all_goals first
    | exact ⟨_, rfl⟩
    | simp_all

/-- Witness for C7: supplying an empty value on the one-secret state. -/
theorem update_empty_value_rejected_witness :
    (updateOp wSt1 "a" wEmptyValReq true).2 = wSt1 ∧
    (updateOp wSt1 "a" wEmptyValReq true).1
      = .badRequest "Secret value cannot be empty" := by
  obtain ⟨msg, hm⟩ := update_empty_value_rejected wSt1 "a" wEmptyValReq
    true 0 rfl rfl
  exact ⟨by rw [hm], rfl⟩

/-- C8.  Deleting an id that is not in the registry answers 404 and
    returns the state — registry, value store, and the metadata file
    byte-for-byte — unchanged; creating an id that is already present
    leaves the state unchanged and answers 409 conflict (or a 400
    validation error when an earlier validation fails first), never
    reaching a side effect. -/
theorem missing_delete_and_duplicate_create_rejected :
    (∀ (st : ServerState) (paramId : String) (persistOk : Bool),
      st.registry.findIdx? (fun s => s.id == JsValue.str paramId) = none →
      deleteOp st paramId persistOk = (.notFound, st)) ∧
    (∀ (st : ServerState) (req : CreateReq) (persistOk : Bool)
        (idv : JsValue), req.id = some idv →
      (∃ m ∈ st.registry, m.id = idv) →
      (createOp st req persistOk).2 = st ∧
      ((createOp st req persistOk).1 = .conflict ∨
        ∃ msg, (createOp st req persistOk).1 = .badRequest msg)) := by
  constructor
  · intro st paramId persistOk hIdx
    unfold deleteOp
    rw [hIdx]
  · intro st req persistOk idv hid hdup
    unfold createOp
    repeat' split
    all_goals first
      | exact ⟨rfl, Or.inl rfl⟩
      | exact ⟨rfl, Or.inr ⟨_, rfl⟩⟩
      | simp_all [List.find?_isSome]

/-- Witness for C8: deleting the missing id "zzz" and re-creating the
    present id "a" on the one-secret state. -/
theorem missing_delete_and_duplicate_create_rejected_witness :
    deleteOp wSt1 "zzz" true = (.notFound, wSt1) ∧
    (createOp wSt1 wCreateReq true).2 = wSt1 ∧
    (createOp wSt1 wCreateReq true).1 = .conflict := by
  have h := missing_delete_and_duplicate_create_rejected
  exact ⟨h.1 wSt1 "zzz" true rfl,
    (h.2 wSt1 wCreateReq true (.str "a") rfl
      ⟨sampleMeta, by decide, rfl⟩).1, rfl⟩

/-- Counterexample to C9 as stated: a successful update whose
    caller-supplied updatedAt (3) is strictly smaller than the stored
    updatedAt (5) — the handler stores the request's updatedAt verbatim
    and enforces no monotonicity. -/
theorem updatedAt_can_decrease_counterexample :
    isSuccess (updateOp c9State "a" c9Req true).1 = true ∧
    ((updateOp c9State "a" c9Req true).2.registry.getD 0
        default).updatedAt = some (.num 3) ∧
    (c9State.registry.getD 0 default).updatedAt = some (.num 5) ∧
    (3 : Int) < 5 := by
  refine ⟨rfl, rfl, rfl, by decide⟩

/-- C9 as amended: a successful update stores exactly the caller-supplied
    updatedAt when one is provided — whatever its value — and keeps the
    previous updatedAt when the field is omitted; no ordering between the
    two is enforced. -/
theorem update_updatedAt_taken_from_request (st : ServerState)
    (paramId : String) (req : UpdateReq) (persistOk : Bool) (i : Nat)
    (old m : SecretMetadata) (v : Option String) (st' : ServerState)
    (hIdx : st.registry.findIdx? (fun s => s.id == JsValue.str paramId)
      = some i)
    (hOld : st.registry.getD i default = old)
    (hEq : updateOp st paramId req persistOk = (.okJson m v, st')) :
    (req.updatedAt = none → m.updatedAt = old.updatedAt) ∧
    (∀ u, req.updatedAt = some u → m.updatedAt = some u) := by
  unfold updateOp at hEq
  repeat' split at hEq
  all_goals injection hEq with h1 h2
  all_goals first
    | exact ApiResult.noConfusion h1
    | (injection h1 with hm hv
       subst hm hv h2
       constructor
       · intro h0; simp_all [applyUpdate]
       · intro u h0; simp_all [applyUpdate])

/-- Witness for the amended C9 at the decreasing-timestamp fixture. -/
theorem update_updatedAt_taken_from_request_witness :
    ((updateOp c9State "a" c9Req true).2.registry.getD 0
        default).updatedAt = some (.num 3) ∧
    c9Req.updatedAt = some (.num 3) := by
  have h := update_updatedAt_taken_from_request c9State "a" c9Req true 0
    c9Meta ((updateOp c9State "a" c9Req true).2.registry.getD 0 default)
    (some "v") (updateOp c9State "a" c9Req true).2 rfl rfl rfl
  exact ⟨h.2 (.num 3) rfl, rfl⟩

end SecureVault
